import Mathlib

/-!
# Verification of the task-manager backend against its specification

Shallow embedding of the Express/Sequelize/Redis task service:
`src/routes/tasks.js` (the four route handlers and `clearCache`),
`src/middleware/errorHandler.js`, and the Sequelize `Task` model
(UUID primary key, `title` with `notEmpty`/`len [1,255]` validators,
`status` ENUM('pending','completed'), automatic timestamps).

JavaScript request values are embedded as `JsVal`; stateful code is
explicit state passing over `St` (Postgres table rows, the single Redis
cache key, the Redis client connection flag, a clock, and instrumentation
counters for store accesses and cache-invalidation calls).  Calls to the
Redis backend can fail; the per-request failure pattern is the explicit
`RedisFates` argument.
-/

namespace TaskApi

/-- A JavaScript value as it can appear in a decoded JSON request body. -/
inductive JsVal where
  | undef
  | nullv
  | bool (b : Bool)
  | num (n : Int)
  | str (s : String)
  | arr (elems : List JsVal)

/-- JavaScript truthiness: `undefined`, `null`, `false`, `0` and `""` are
falsy; every other value here (including any array object) is truthy. -/
def JsVal.truthy : JsVal → Bool
  | .undef => false
  | .nullv => false
  | .bool b => b
  | .num n => n != 0
  | .str s => s != ""
  | .arr _ => true

/-- Whether the value is JavaScript `undefined` (the `!== undefined` tests). -/
def JsVal.isUndef : JsVal → Bool
  | .undef => true
  | _ => false

/-- Whether the value is a string. -/
def JsVal.isStr : JsVal → Bool
  | .str _ => true
  | _ => false

/-- Drop leading and trailing whitespace from a character list. -/
def trimChars (cs : List Char) : List Char :=
  ((cs.dropWhile Char.isWhitespace).reverse.dropWhile Char.isWhitespace).reverse

/-- Model of JavaScript `String.prototype.trim`. -/
def jsStringTrim (s : String) : String :=
  String.mk (trimChars s.data)

/-- Model of `v.trim()`: defined for strings, a thrown `TypeError` for every
other value (numbers, booleans, arrays, `null`, `undefined` have no usable
`trim` method). -/
def jsTrim : JsVal → Option String
  | .str s => some (jsStringTrim s)
  | _ => none

/-- Model of `description?.trim() || ''` from the create handler: optional
chaining turns `null`/`undefined` into `undefined`, which `|| ''` replaces
by the empty string; a string is trimmed (a trimmed-empty result is mapped
to `''` by `|| ''`, which coincides with the trim); any other value throws
`TypeError` when `.trim()` is called on it. -/
def jsOptTrimOrEmpty : JsVal → Option String
  | .undef => some ""
  | .nullv => some ""
  | .str s => some (jsStringTrim s)
  | _ => none

/-- Model of `status || 'pending'` from the create handler: a falsy status
(absent, `null`, `false`, `0`, `""`) is replaced by `'pending'`. -/
def jsOrPending (v : JsVal) : JsVal :=
  if v.truthy then v else .str "pending"

/-- Model of `['pending', 'completed'].includes(status)`: true exactly for
the two enum strings (strict equality, so only strings can match). -/
def jsIsStatus : JsVal → Bool
  | .str s => s == "pending" || s == "completed"
  | _ => false

/-- The value is `undefined` or a string (the shapes for which the patch
handler's unconditional `.trim()` does not throw). -/
def undefOrStr : JsVal → Bool
  | .undef => true
  | .str _ => true
  | _ => false

/-- The value is `undefined`, `null` or a string (the shapes for which the
create handler's `description?.trim() || ''` does not throw). -/
def undefNullOrStr : JsVal → Bool
  | .undef => true
  | .nullv => true
  | .str _ => true
  | _ => false

/-- A persisted Task row: UUID primary key, trimmed texts, enum status and
the two Sequelize-managed timestamps (modelled as abstract clock readings). -/
structure Task where
  id : String
  title : String
  description : String
  status : String
  createdAt : Nat
  updatedAt : Nat
deriving DecidableEq

/-- Hexadecimal digit test (both cases), as accepted by the store's uuid
parser. -/
def isHexDigit (c : Char) : Bool :=
  ('0' ≤ c && c ≤ '9') || ('a' ≤ c && c ≤ 'f') || ('A' ≤ c && c ≤ 'F')

/-- Scanner for the canonical 8-4-4-4-12 hyphenated uuid shape, tracking the
current character position. -/
def uuidScan : List Char → Nat → Bool
  | [], pos => pos == 36
  | c :: cs, pos =>
    (if pos == 8 || pos == 13 || pos == 18 || pos == 23 then c == '-'
     else isHexDigit c) && uuidScan cs (pos + 1)

/-- Modelled from the external store's uuid column: the id strings its uuid
parser accepts (canonical hyphenated hexadecimal form); every other id makes
the parameterised lookup query fail with a database error. -/
def pgUuidOk (s : String) : Bool := uuidScan s.data 0

/-- The hexadecimal digit character for `d % 16` (0-9 then a-f, as
`Nat.digitChar` renders them). -/
def hexChar (d : Nat) : Char := Nat.digitChar (d % 16)

/-- Big-endian fixed-width hexadecimal rendering of a natural number. -/
def hexPad : Nat → Nat → List Char
  | 0, _ => []
  | w + 1, n => hexPad w (n / 16) ++ [hexChar n]

/-- Constant head of the generated version-4 identifiers. -/
def uuidHead : List Char :=
  ['0', '0', '0', '0', '0', '0', '0', '0', '-', '0', '0', '0', '0', '-',
   '4', '0', '0', '0', '-', '8', '0', '0', '0', '-']

/-- Modelled from the store's `UUIDV4` default: a fresh canonical uuid
string for the n-th insertion (the random bits are embedded as a counter;
only well-formedness and freshness of generated ids matter here). -/
def genId (n : Nat) : String := String.mk (uuidHead ++ hexPad 12 n)

/-- Serialized JSON of one task, as `JSON.stringify` renders a row. -/
def serializeTask (t : Task) : String :=
  "\x7b\"id\":\"" ++ t.id ++ "\",\"title\":\"" ++ t.title ++
  "\",\"description\":\"" ++ t.description ++ "\",\"status\":\"" ++ t.status ++
  "\",\"createdAt\":" ++ toString t.createdAt ++
  ",\"updatedAt\":" ++ toString t.updatedAt ++ "\x7d"

/-- Serialized JSON array of tasks (`JSON.stringify(tasks)`). -/
def serializeTasks (ts : List Task) : String :=
  "[" ++ String.intercalate "," (ts.map serializeTask) ++ "]"

/-- Insert a task into a createdAt-descending list, after every element
whose `createdAt` is at least as large (so equal keys keep their earlier
position). -/
def insertDesc (t : Task) : List Task → List Task
  | [] => [t]
  | u :: us =>
    if t.createdAt ≤ u.createdAt then u :: insertDesc t us
    else t :: u :: us

/-- Modelled from the spec: the Store's `findAll({order: [['createdAt',
'DESC']]})` query over the table rows held in insertion order — a stable
descending sort on `createdAt` (the spec fixes the tie-break to insertion
order; the storage engine itself is outside the repository). -/
def sortByCreatedDesc (ts : List Task) : List Task :=
  ts.foldl (fun acc t => insertDesc t acc) []

/-- The Postgres table state: rows in insertion order plus the seed feeding
the id generator. -/
structure Store where
  rows : List Task
  nextIdSeed : Nat
deriving DecidableEq

/-- Whole-system state: the store, the single Redis key `tasks:all` (value
and absolute expiry time, as kept by the Redis server), the client
connection flag `redisClient.isOpen`, a clock, and two instrumentation
counters (store accesses issued; `clearCache` invocations). -/
structure St where
  store : Store
  cache : Option (String × Nat)
  isOpen : Bool
  now : Nat
  storeCalls : Nat
  clearCalls : Nat
deriving DecidableEq

/-- One store access performed. -/
def bumpStore (s : St) : St := { s with storeCalls := s.storeCalls + 1 }

/-- Environment step: one unit of time passes between requests. -/
def tick (s : St) : St := { s with now := s.now + 1 }

/-- The value `redisClient.get(CACHE_KEY)` yields against the server state:
the stored value while unexpired, otherwise an absent key (a miss). -/
def cacheRead (s : St) : Option String :=
  match s.cache with
  | some (v, exp) => if s.now < exp then some v else none
  | none => none

/-- Which Redis backend calls fail (throw) during the request at hand. -/
structure RedisFates where
  getFails : Bool
  setFails : Bool
  delFails : Bool
deriving DecidableEq

/-- A request during which every Redis call succeeds. -/
def redisOk : RedisFates := ⟨false, false, false⟩

/-- Exceptions that reach the route handlers' catch blocks. -/
inductive Exc where
  | seqValidation (msgs : List String)
  | seqDatabase (msg : String)
  | jsTypeError (msg : String)
  | redisError (msg : String)
deriving DecidableEq

/-- JSON response bodies the service produces. -/
inductive RespBody where
  | tasksJson (body : String)
  | taskJson (t : Task)
  | errJson (msg : String)
  | valErrJson (msgs : List String)
  | dbErrJson (msg : String)
  | msgJson (msg : String)
deriving DecidableEq

/-- An HTTP response: status code and JSON body. -/
structure Resp where
  status : Nat
  body : RespBody
deriving DecidableEq

/-- `src/middleware/errorHandler.js`: SequelizeValidationError and
SequelizeDatabaseError map to 400 with their payloads; everything else is a
generic 500. -/
def errorHandler : Exc → Resp
  | .seqValidation msgs => ⟨400, .valErrJson msgs⟩
  | .seqDatabase m => ⟨400, .dbErrJson m⟩
  | .jsTypeError _ => ⟨500, .errJson "Internal server error"⟩
  | .redisError _ => ⟨500, .errJson "Internal server error"⟩

/-- `clearCache` from `src/routes/tasks.js`: when the client is open,
`DEL tasks:all`; any error is caught and only logged; counts as one
invalidation call either way. -/
def clearCache (f : RedisFates) (s : St) : St :=
  let s1 := { s with clearCalls := s.clearCalls + 1 }
  if s1.isOpen then
    if f.delFails then s1 else { s1 with cache := none }
  else s1

/-- `GET /tasks`: consult the cache when the client is open (a thrown get
propagates to the error handler); on a hit return the cached serialization;
on a miss read the store sorted by `createdAt DESC`, then (client open)
`SETEX` the serialization with the 300-second time-to-live (a thrown set
also propagates); closed client skips both cache steps. -/
def listHandler (f : RedisFates) (s : St) : Resp × St :=
  if s.isOpen then
    if f.getFails then (errorHandler (.redisError "get failed"), s)
    else
      match cacheRead s with
      | some v => (⟨200, .tasksJson v⟩, s)
      | none =>
        let s1 := bumpStore s
        let body := serializeTasks (sortByCreatedDesc s1.store.rows)
        if f.setFails then (errorHandler (.redisError "setEx failed"), s1)
        else (⟨200, .tasksJson body⟩,
              { s1 with cache := some (body, s1.now + 300) })
  else
    let s1 := bumpStore s
    (⟨200, .tasksJson (serializeTasks (sortByCreatedDesc s1.store.rows))⟩, s1)

/-- `Task.findByPk(id)`: the query is issued (one store access) whatever the
id looks like; the store's uuid parser rejects non-uuid ids with a database
error, otherwise the first row with that primary key is returned. -/
def findByPk (id : String) (s : St) : Except Exc (Option Task) × St :=
  let s1 := bumpStore s
  if pgUuidOk id then (.ok (s1.store.rows.find? (fun t => t.id == id)), s1)
  else (.error (.seqDatabase "invalid input syntax for type uuid"), s1)

/-- `GET /tasks/:id`: look the row up; 404 when absent; thrown store errors
go to the error handler. -/
def getTaskHandler (id : String) (s : St) : Resp × St :=
  match findByPk id s with
  | (.error e, s1) => (errorHandler e, s1)
  | (.ok none, s1) => (⟨404, .errJson "Task not found"⟩, s1)
  | (.ok (some t), s1) => (⟨200, .taskJson t⟩, s1)

/-- A decoded request body: the three fields the handlers destructure
(absent fields decode to `undefined`). -/
structure ReqBody where
  title : JsVal
  description : JsVal
  status : JsVal

/-- Outcome of a mutation handler before the trailing `clearCache` call:
either a failure response with the state reached so far, or a success
response together with the mutated state. -/
inductive MutOut where
  | fail (r : Resp) (s1 : St)
  | success (r : Resp) (s1 : St)

/-- Modelled from the Sequelize `Task` model validators run by
`Task.create`: `notEmpty` (rejecting whitespace-only titles) and
`len [1, 255]` on `title`, and the ENUM membership check on the raw status
value; on success the validated status string is produced.  (Sequelize
collects every failing validator; only the first failing message is kept
here, which no claim inspects.) -/
def taskCreateValidate (title : String) (statusV : JsVal) : Except Exc String :=
  if jsStringTrim title = "" then
    .error (.seqValidation ["Title cannot be empty"])
  else if 255 < title.length then
    .error (.seqValidation ["Title must be between 1 and 255 characters"])
  else
    match statusV with
    | .str q =>
      if q = "pending" || q = "completed" then .ok q
      else .error (.seqValidation ["invalid status choice"])
    | _ => .error (.seqValidation ["invalid status choice"])

/-- Modelled from the Sequelize validators run by `task.save()` on the patch
path: `notEmpty` and `len [1, 255]` on the instance's title, ENUM membership
on the instance's status. -/
def taskSaveValidate (title status : String) : Except Exc Unit :=
  if jsStringTrim title = "" then
    .error (.seqValidation ["Title cannot be empty"])
  else if 255 < title.length then
    .error (.seqValidation ["Title must be between 1 and 255 characters"])
  else if status = "pending" || status = "completed" then .ok ()
  else .error (.seqValidation ["invalid status choice"])

/-- `POST /tasks` up to (not including) the `clearCache` call: the route's
`!title || title.trim() === ''` guard (a non-string truthy title makes
`.trim()` throw), then `Task.create` with trimmed title,
`description?.trim() || ''` and `status || 'pending'`. -/
def createAttempt (b : ReqBody) (s : St) : MutOut :=
  if b.title.truthy then
    match jsTrim b.title with
    | none => .fail (errorHandler (.jsTypeError "title.trim is not a function")) s
    | some t =>
      if t = "" then .fail ⟨400, .errJson "Title is required"⟩ s
      else
        match jsOptTrimOrEmpty b.description with
        | none =>
          .fail (errorHandler (.jsTypeError "description.trim is not a function")) s
        | some d =>
          match taskCreateValidate t (jsOrPending b.status) with
          | .error e => .fail (errorHandler e) s
          | .ok q =>
            let task : Task :=
              { id := genId s.store.nextIdSeed, title := t, description := d,
                status := q, createdAt := s.now, updatedAt := s.now }
            let s1 := bumpStore
              { s with store := { rows := s.store.rows ++ [task],
                                  nextIdSeed := s.store.nextIdSeed + 1 } }
            .success ⟨201, .taskJson task⟩ s1
  else .fail ⟨400, .errJson "Title is required"⟩ s

/-- `POST /tasks`: the attempt, then `clearCache` on success. -/
def createHandler (b : ReqBody) (f : RedisFates) (s : St) : Resp × St :=
  match createAttempt b s with
  | .fail r s1 => (r, s1)
  | .success r s1 => (r, clearCache f s1)

/-- The status value the patch path saves: the supplied enum string, or the
row's previous status when none was supplied. -/
def patchStatus (v : JsVal) (old : String) : String :=
  match v with
  | .str q => q
  | _ => old

/-- `PATCH /tasks/:id` up to (not including) the `clearCache` call: load the
row (404 when absent), assign `title.trim()` and `description.trim()` for
the supplied fields (throwing on non-strings), reject a supplied status
outside the enum with 400 before saving, then `task.save()` which runs the
model validators and refreshes `updatedAt`. -/
def patchAttempt (id : String) (b : ReqBody) (s : St) : MutOut :=
  match findByPk id s with
  | (.error e, s1) => .fail (errorHandler e) s1
  | (.ok none, s1) => .fail ⟨404, .errJson "Task not found"⟩ s1
  | (.ok (some task), s1) =>
    match (if b.title.isUndef then some task.title else jsTrim b.title) with
    | none => .fail (errorHandler (.jsTypeError "title.trim is not a function")) s1
    | some title1 =>
      match (if b.description.isUndef then some task.description
             else jsTrim b.description) with
      | none =>
        .fail (errorHandler (.jsTypeError "description.trim is not a function")) s1
      | some desc1 =>
        if b.status.isUndef || jsIsStatus b.status then
          match taskSaveValidate title1 (patchStatus b.status task.status) with
          | .error e => .fail (errorHandler e) s1
          | .ok _ =>
            let updated : Task :=
              { task with title := title1, description := desc1,
                          status := patchStatus b.status task.status,
                          updatedAt := s1.now }
            let s2 := bumpStore
              { s1 with store :=
                { s1.store with rows :=
                    s1.store.rows.map (fun u => if u.id == task.id then updated else u) } }
            .success ⟨200, .taskJson updated⟩ s2
        else .fail ⟨400, .errJson "Invalid status"⟩ s1

/-- `PATCH /tasks/:id`: the attempt, then `clearCache` on success. -/
def patchHandler (id : String) (b : ReqBody) (f : RedisFates) (s : St) : Resp × St :=
  match patchAttempt id b s with
  | .fail r s1 => (r, s1)
  | .success r s1 => (r, clearCache f s1)

/-- `DELETE /tasks/:id` up to (not including) the `clearCache` call: load
the row (404 when absent) and `task.destroy()`. -/
def deleteAttempt (id : String) (s : St) : MutOut :=
  match findByPk id s with
  | (.error e, s1) => .fail (errorHandler e) s1
  | (.ok none, s1) => .fail ⟨404, .errJson "Task not found"⟩ s1
  | (.ok (some task), s1) =>
    let s2 := bumpStore
      { s1 with store :=
        { s1.store with rows := s1.store.rows.filter (fun u => !(u.id == task.id)) } }
    .success ⟨200, .msgJson "Task deleted successfully"⟩ s2

/-- `DELETE /tasks/:id`: the attempt, then `clearCache` on success. -/
def deleteHandler (id : String) (f : RedisFates) (s : St) : Resp × St :=
  match deleteAttempt id s with
  | .fail r s1 => (r, s1)
  | .success r s1 => (r, clearCache f s1)

/-! ## Basic lemmas about trimming, generated ids and the listing order -/

theorem trimChars_eq_rdrop (cs : List Char) :
    trimChars cs = List.rdropWhile Char.isWhitespace (List.dropWhile Char.isWhitespace cs) := rfl

theorem dropWhile_eq_self_of_isPrefix {p : Char → Bool} {r m : List Char}
    (hpre : r <+: m) (hm : List.dropWhile p m = m) : List.dropWhile p r = r := by
  cases r with
  | nil => rfl
  | cons c r1 =>
    obtain ⟨t, ht⟩ := hpre
    subst ht
    rw [List.cons_append, List.dropWhile_cons] at hm
    rw [List.dropWhile_cons]
    by_cases hc : p c
    · exfalso
      simp only [hc, if_true] at hm
      have hlen := congrArg List.length hm
      have hle := (List.dropWhile_suffix (l := r1 ++ t) p).sublist.length_le
      simp [List.length_append] at hlen hle
      omega
    · simp [hc]

theorem trimChars_idem (cs : List Char) : trimChars (trimChars cs) = trimChars cs := by
  have h1 : List.dropWhile Char.isWhitespace (trimChars cs) = trimChars cs := by
    refine dropWhile_eq_self_of_isPrefix ?_
      (List.dropWhile_idempotent Char.isWhitespace cs)
    rw [trimChars_eq_rdrop]
    exact List.rdropWhile_prefix Char.isWhitespace (List.dropWhile Char.isWhitespace cs)
  calc trimChars (trimChars cs)
      = List.rdropWhile Char.isWhitespace (List.dropWhile Char.isWhitespace (trimChars cs)) :=
        trimChars_eq_rdrop _
    _ = List.rdropWhile Char.isWhitespace (trimChars cs) := by rw [h1]
    _ = List.rdropWhile Char.isWhitespace
          (List.rdropWhile Char.isWhitespace (List.dropWhile Char.isWhitespace cs)) := by
        rw [trimChars_eq_rdrop]
    _ = List.rdropWhile Char.isWhitespace (List.dropWhile Char.isWhitespace cs) :=
        List.rdropWhile_idempotent Char.isWhitespace _
    _ = trimChars cs := (trimChars_eq_rdrop cs).symm

theorem jsStringTrim_idem (s : String) : jsStringTrim (jsStringTrim s) = jsStringTrim s :=
  congrArg String.mk (trimChars_idem s.data)

theorem jsStringTrim_ne_empty {s : String} (h : jsStringTrim s ≠ "") : s ≠ "" := by
  intro he
  subst he
  exact h rfl

theorem hexPad_length (w : Nat) : ∀ n, (hexPad w n).length = w := by
  induction w with
  | zero => intro n; rfl
  | succ w ih => intro n; simp [hexPad, ih]

theorem isHexDigit_digitChar : ∀ m, m < 16 → isHexDigit (Nat.digitChar m) = true := by
  decide

theorem isHexDigit_hexChar (d : Nat) : isHexDigit (hexChar d) = true :=
  isHexDigit_digitChar (d % 16) (Nat.mod_lt _ (by norm_num))

theorem hexPad_all_hex (w : Nat) : ∀ n c, c ∈ hexPad w n → isHexDigit c = true := by
  induction w with
  | zero => intro n c h; simp [hexPad] at h
  | succ w ih =>
    intro n c h
    simp only [hexPad, List.mem_append, List.mem_singleton] at h
    rcases h with h | h
    · exact ih _ _ h
    · subst h; exact isHexDigit_hexChar n

theorem uuidScan_hex_tail : ∀ (l : List Char) (pos : Nat), 24 ≤ pos → pos + l.length = 36 →
    (∀ c ∈ l, isHexDigit c = true) → uuidScan l pos = true := by
  intro l
  induction l with
  | nil =>
    intro pos h24 hlen _
    simp only [List.length_nil, Nat.add_zero] at hlen
    simp [uuidScan, hlen]
  | cons c cs ih =>
    intro pos h24 hlen hhex
    have hc : isHexDigit c = true := hhex c (by simp)
    have h8 : (pos == 8) = false := by simp; omega
    have h13 : (pos == 13) = false := by simp; omega
    have h18 : (pos == 18) = false := by simp; omega
    have h23 : (pos == 23) = false := by simp; omega
    simp only [uuidScan, h8, h13, h18, h23, Bool.or_self, Bool.or_false, Bool.false_or,
      if_false, hc, Bool.true_and]
    exact ih (pos + 1) (by omega) (by simp at hlen ⊢; omega)
      (fun x hx => hhex x (by simp [hx]))

theorem uuidScan_head (l : List Char) : uuidScan (uuidHead ++ l) 0 = uuidScan l 24 := by
  have h0 : isHexDigit '0' = true := by decide
  have h4 : isHexDigit '4' = true := by decide
  have h8 : isHexDigit '8' = true := by decide
  simp [uuidScan, uuidHead, h0, h4, h8]

theorem pgUuidOk_genId (n : Nat) : pgUuidOk (genId n) = true := by
  show uuidScan (uuidHead ++ hexPad 12 n) 0 = true
  rw [uuidScan_head]
  exact uuidScan_hex_tail (hexPad 12 n) 24 (by omega)
    (by rw [hexPad_length]) (hexPad_all_hex 12 n)

/-- The listing order: createdAt descending. -/
def sortedDesc (l : List Task) : Prop :=
  l.Pairwise (fun a b => b.createdAt ≤ a.createdAt)

theorem insertDesc_perm (t : Task) (l : List Task) : List.Perm (insertDesc t l) (t :: l) := by
  induction l with
  | nil => exact List.Perm.refl _
  | cons u us ih =>
    unfold insertDesc
    by_cases h : t.createdAt ≤ u.createdAt
    · simp only [h, if_true]
      exact (List.Perm.cons u ih).trans (List.Perm.swap t u us)
    · simp only [h, if_false]
      exact List.Perm.refl _

theorem insertDesc_sorted {t : Task} {l : List Task} (hl : sortedDesc l) :
    sortedDesc (insertDesc t l) := by
  induction l with
  | nil => exact List.pairwise_singleton _ _
  | cons u us ih =>
    rcases List.pairwise_cons.mp hl with ⟨hrel, hus⟩
    unfold insertDesc
    by_cases h : t.createdAt ≤ u.createdAt
    · simp only [h, if_true]
      refine List.pairwise_cons.mpr ⟨?_, ih hus⟩
      intro x hx
      rcases List.mem_cons.mp ((insertDesc_perm t us).mem_iff.mp hx) with hx | hx
      · subst hx; exact h
      · exact hrel x hx
    · simp only [h, if_false]
      refine List.pairwise_cons.mpr ⟨?_, hl⟩
      intro x hx
      rcases List.mem_cons.mp hx with hx | hx
      · subst hx; omega
      · have := hrel x hx; omega

theorem insertDesc_filter (t : Task) (k : Nat) {l : List Task} (hl : sortedDesc l) :
    (insertDesc t l).filter (fun u => u.createdAt == k)
      = if t.createdAt == k
        then l.filter (fun u => u.createdAt == k) ++ [t]
        else l.filter (fun u => u.createdAt == k) := by
  induction l with
  | nil =>
    by_cases hk : t.createdAt == k <;> simp [insertDesc, List.filter, hk]
  | cons u us ih =>
    rcases List.pairwise_cons.mp hl with ⟨hrel, hus⟩
    unfold insertDesc
    by_cases h : t.createdAt ≤ u.createdAt
    · simp only [h, if_true]
      by_cases hk : t.createdAt == k
      · simp only [hk, if_true] at ih ⊢
        by_cases huk : u.createdAt == k <;>
          simp [List.filter_cons, huk, ih hus]
      · simp only [hk, if_false] at ih ⊢
        by_cases huk : u.createdAt == k <;>
          simp [List.filter_cons, huk, ih hus]
    · simp only [h, if_false]
      by_cases hk : t.createdAt == k
      · simp only [hk, if_true]
        have hempty : (u :: us).filter (fun u => u.createdAt == k) = [] := by
          rw [List.filter_eq_nil_iff]
          intro x hx
          have hxle : x.createdAt ≤ u.createdAt := by
            rcases List.mem_cons.mp hx with hx | hx
            · subst hx; exact le_refl _
            · exact hrel x hx
          have hkt : t.createdAt = k := by simpa using hk
          simp only [beq_iff_eq]
          omega
        simp [List.filter_cons, hk, hempty]
      · simp [List.filter_cons, hk]

theorem foldl_insertDesc_perm : ∀ (ts acc : List Task),
    List.Perm (ts.foldl (fun acc t => insertDesc t acc) acc) (acc ++ ts) := by
  intro ts
  induction ts with
  | nil => intro acc; simp
  | cons t ts ih =>
    intro acc
    simp only [List.foldl_cons]
    refine (ih _).trans (((insertDesc_perm t acc).append_right ts).trans ?_)
    rw [List.cons_append]
    exact (List.perm_middle).symm

theorem foldl_insertDesc_sorted : ∀ (ts acc : List Task), sortedDesc acc →
    sortedDesc (ts.foldl (fun acc t => insertDesc t acc) acc) := by
  intro ts
  induction ts with
  | nil => intro acc h; exact h
  | cons t ts ih =>
    intro acc h
    exact ih _ (insertDesc_sorted h)

theorem foldl_insertDesc_filter : ∀ (ts acc : List Task) (k : Nat), sortedDesc acc →
    (ts.foldl (fun acc t => insertDesc t acc) acc).filter (fun u => u.createdAt == k)
      = acc.filter (fun u => u.createdAt == k) ++ ts.filter (fun u => u.createdAt == k) := by
  intro ts
  induction ts with
  | nil => intro acc k h; simp
  | cons t ts ih =>
    intro acc k h
    simp only [List.foldl_cons]
    rw [ih _ k (insertDesc_sorted h), insertDesc_filter t k h]
    by_cases hk : t.createdAt == k
    · simp [List.filter_cons, hk]
    · simp [List.filter_cons, hk]

theorem sortByCreatedDesc_perm (ts : List Task) : List.Perm (sortByCreatedDesc ts) ts := by
  have h := foldl_insertDesc_perm ts []
  simpa [sortByCreatedDesc] using h

theorem sortByCreatedDesc_sorted (ts : List Task) : sortedDesc (sortByCreatedDesc ts) :=
  foldl_insertDesc_sorted ts [] List.Pairwise.nil

theorem sortByCreatedDesc_stable (ts : List Task) (k : Nat) :
    (sortByCreatedDesc ts).filter (fun u => u.createdAt == k)
      = ts.filter (fun u => u.createdAt == k) := by
  have h := foldl_insertDesc_filter ts [] k List.Pairwise.nil
  simpa [sortByCreatedDesc] using h

/-! ## Concrete states used by witnesses and counterexamples -/

/-- A concrete persisted task. -/
def wTask : Task :=
  { id := genId 0, title := "Buy milk", description := "", status := "pending",
    createdAt := 0, updatedAt := 0 }

/-- One task persisted, empty cache, Redis client open. -/
def wState : St :=
  { store := { rows := [wTask], nextIdSeed := 1 }, cache := none,
    isOpen := true, now := 5, storeCalls := 0, clearCalls := 0 }

/-- Same store, but the listing is cached and unexpired. -/
def wStateCached : St :=
  { wState with cache := some (serializeTasks [wTask], 100) }

/-- Same store, Redis client not open. -/
def wStateClosed : St :=
  { wState with isOpen := false }

/-! ## C1 -/

/-- C1: with the cache layer operating (client open, no Redis-call failure),
`List()` returns an unexpired cached snapshot verbatim with no store access
and no state change; on a miss it reads all tasks from the store ordered by
`createdAt` descending, writes the serialization under the single cache key
with a 300-second time-to-live, and returns it; and a repeated `List()` with
no intervening mutation returns the identical body with no further store
access. -/
theorem list_cache_policy (s : St) (hopen : s.isOpen = true) :
    (∀ v, cacheRead s = some v →
      listHandler redisOk s = (⟨200, .tasksJson v⟩, s)) ∧
    (cacheRead s = none →
      listHandler redisOk s =
        (⟨200, .tasksJson (serializeTasks (sortByCreatedDesc s.store.rows))⟩,
         { s with storeCalls := s.storeCalls + 1,
                  cache := some (serializeTasks (sortByCreatedDesc s.store.rows),
                                 s.now + 300) }) ∧
      (listHandler redisOk ((listHandler redisOk s).2)).1 = (listHandler redisOk s).1 ∧
      ((listHandler redisOk ((listHandler redisOk s).2)).2).storeCalls
        = ((listHandler redisOk s).2).storeCalls) := by
  constructor
  · intro v hv
    simp [listHandler, hopen, hv, redisOk]
  · intro hv
    have h1 : listHandler redisOk s =
        (⟨200, .tasksJson (serializeTasks (sortByCreatedDesc s.store.rows))⟩,
         { s with storeCalls := s.storeCalls + 1,
                  cache := some (serializeTasks (sortByCreatedDesc s.store.rows),
                                 s.now + 300) }) := by
      simp [listHandler, hopen, hv, redisOk, bumpStore]
    refine ⟨h1, ?_, ?_⟩
    · rw [h1]
      simp [listHandler, cacheRead, hopen, redisOk]
    · rw [h1]
      simp [listHandler, cacheRead, hopen, redisOk]

/-- Witness for C1: at the concrete cached state the hit branch returns the
snapshot unchanged, and at the concrete empty-cache state the miss branch
populates the cache. -/
theorem list_cache_policy_w :
    listHandler redisOk wStateCached
      = (⟨200, .tasksJson (serializeTasks [wTask])⟩, wStateCached) ∧
    listHandler redisOk wState =
      (⟨200, .tasksJson (serializeTasks (sortByCreatedDesc wState.store.rows))⟩,
       { wState with storeCalls := wState.storeCalls + 1,
                     cache := some (serializeTasks (sortByCreatedDesc wState.store.rows),
                                    wState.now + 300) }) :=
  ⟨(list_cache_policy wStateCached (by decide)).1 (serializeTasks [wTask]) (by decide),
   ((list_cache_policy wState (by decide)).2 (by decide)).1⟩

/-! ## C3 -/

/-- C3 counterexample: with the Redis client open, a failing cache `get`
call propagates out of the handler's try block, so the request fails with
the generic 500 instead of degrading to a store read — contradicting the
claim that a failing cache Get never causes the request to fail. -/
theorem list_fails_on_cache_get_error :
    listHandler ⟨true, false, false⟩ wState
      = (⟨500, .errJson "Internal server error"⟩, wState) := by
  decide

/-- C3 amended: only an unavailable cache client (not open) degrades `List()`
to a direct store read that skips caching; a cache `get` or `setEx` call that
throws while the client is open fails the request with 500 (in the `setEx`
case even though the listing had already been fetched). -/
theorem cache_error_propagation (s : St) (f : RedisFates) :
    (s.isOpen = false →
      listHandler f s =
        (⟨200, .tasksJson (serializeTasks (sortByCreatedDesc s.store.rows))⟩,
         bumpStore s)) ∧
    (s.isOpen = true → f.getFails = true →
      listHandler f s = (⟨500, .errJson "Internal server error"⟩, s)) ∧
    (s.isOpen = true → f.getFails = false → cacheRead s = none → f.setFails = true →
      listHandler f s = (⟨500, .errJson "Internal server error"⟩, bumpStore s)) := by
  refine ⟨?_, ?_, ?_⟩
  · intro hcl
    simp [listHandler, hcl, bumpStore]
  · intro hop hg
    simp [listHandler, hop, hg, errorHandler]
  · intro hop hg hm hs
    simp [listHandler, hop, hg, hm, hs, errorHandler]

/-- Witness for C3 amended: the three branches at concrete states. -/
theorem cache_error_propagation_w :
    (listHandler redisOk wStateClosed =
      (⟨200, .tasksJson (serializeTasks (sortByCreatedDesc wStateClosed.store.rows))⟩,
       bumpStore wStateClosed)) ∧
    (listHandler ⟨true, false, false⟩ wState
      = (⟨500, .errJson "Internal server error"⟩, wState)) ∧
    (listHandler ⟨false, true, false⟩ wState
      = (⟨500, .errJson "Internal server error"⟩, bumpStore wState)) :=
  ⟨(cache_error_propagation wStateClosed redisOk).1 (by decide),
   (cache_error_propagation wState ⟨true, false, false⟩).2.1 (by decide) (by decide),
   (cache_error_propagation wState ⟨false, true, false⟩).2.2 (by decide) (by decide)
     (by decide) (by decide)⟩

/-! ## C4 -/

/-- C4 counterexample: `Get("abc")` issues a store lookup (the store-access
counter increments) and the 400 carries the store's database-error payload —
there is no pre-lookup identifier check and no `InvalidIdentifier` error,
contradicting the claim that no store access occurs for a malformed id. -/
theorem malformed_id_hits_store :
    getTaskHandler "abc" wState
        = (⟨400, .dbErrJson "invalid input syntax for type uuid"⟩, bumpStore wState) ∧
      (getTaskHandler "abc" wState).2.storeCalls = wState.storeCalls + 1 := by
  constructor
  · decide
  · decide

/-- C4 amended: for every id the store's uuid parser rejects, Get, Update and
Delete each return HTTP 400, but via a database error raised by the store
after the lookup has been issued (exactly one store access), not via a
pre-store `InvalidIdentifier` check. -/
theorem malformed_id_database_error (id : String) (s : St) (b : ReqBody)
    (f : RedisFates) (h : pgUuidOk id = false) :
    getTaskHandler id s
        = (⟨400, .dbErrJson "invalid input syntax for type uuid"⟩, bumpStore s) ∧
    patchHandler id b f s
        = (⟨400, .dbErrJson "invalid input syntax for type uuid"⟩, bumpStore s) ∧
    deleteHandler id f s
        = (⟨400, .dbErrJson "invalid input syntax for type uuid"⟩, bumpStore s) := by
  refine ⟨?_, ?_, ?_⟩
  · simp [getTaskHandler, findByPk, h, errorHandler]
  · simp [patchHandler, patchAttempt, findByPk, h, errorHandler]
  · simp [deleteHandler, deleteAttempt, findByPk, h, errorHandler]

/-- Witness for C4 amended, at the malformed id "abc". -/
theorem malformed_id_database_error_w :
    getTaskHandler "abc" wState
        = (⟨400, .dbErrJson "invalid input syntax for type uuid"⟩, bumpStore wState) ∧
    patchHandler "abc" ⟨.undef, .undef, .undef⟩ redisOk wState
        = (⟨400, .dbErrJson "invalid input syntax for type uuid"⟩, bumpStore wState) ∧
    deleteHandler "abc" redisOk wState
        = (⟨400, .dbErrJson "invalid input syntax for type uuid"⟩, bumpStore wState) :=
  malformed_id_database_error "abc" wState ⟨.undef, .undef, .undef⟩ redisOk (by decide)

/-! ## C10 -/

/-- Case analysis granted by `undefOrStr`. -/
theorem undefOrStr_cases {v : JsVal} (h : undefOrStr v = true) :
    v = .undef ∨ ∃ x, v = .str x := by
  cases v with
  | undef => exact Or.inl rfl
  | str x => exact Or.inr ⟨x, rfl⟩
  | nullv => simp [undefOrStr] at h
  | bool b => simp [undefOrStr] at h
  | num n => simp [undefOrStr] at h
  | arr es => simp [undefOrStr] at h

/-- C10: a Create whose title is truthy but not a string is never answered
with the title-required validation 400: the emptiness check's `.trim()` call
throws a TypeError, the error handler classifies it as unrecognized, and the
caller receives the generic 500; no task is persisted and the state is
unchanged. -/
theorem create_nonstring_title_500 (v d st : JsVal) (f : RedisFates) (s : St)
    (htr : v.truthy = true) (hns : v.isStr = false) :
    createHandler ⟨v, d, st⟩ f s = (⟨500, .errJson "Internal server error"⟩, s) := by
  cases v with
  | undef => simp [JsVal.truthy] at htr
  | nullv => simp [JsVal.truthy] at htr
  | str x => simp [JsVal.isStr] at hns
  | bool b =>
    simp [JsVal.truthy] at htr
    simp [createHandler, createAttempt, JsVal.truthy, htr, jsTrim, errorHandler]
  | num n =>
    simp [JsVal.truthy] at htr
    simp [createHandler, createAttempt, JsVal.truthy, htr, jsTrim, errorHandler]
  | arr es =>
    simp [createHandler, createAttempt, JsVal.truthy, jsTrim, errorHandler]

/-- Witness for C10 at the number title 5. -/
theorem create_nonstring_title_500_w :
    createHandler ⟨.num 5, .undef, .undef⟩ redisOk wState
      = (⟨500, .errJson "Internal server error"⟩, wState) :=
  create_nonstring_title_500 (.num 5) .undef .undef redisOk wState (by decide) (by decide)

/-! ## C6 -/

/-- C6: an Update of an existing task whose body carries a status outside
the enumeration fails with 400 "Invalid status" before `task.save()` is
reached: the persisted row is unmodified in every field (`updatedAt`
included), no cache invalidation happens, and only the lookup's store access
is recorded. -/
theorem patch_invalid_status_unmodified (id : String) (s : St) (b : ReqBody)
    (f : RedisFates) (task : Task)
    (hid : pgUuidOk id = true)
    (hfound : s.store.rows.find? (fun t => t.id == id) = some task)
    (htitle : undefOrStr b.title = true)
    (hdesc : undefOrStr b.description = true)
    (hstpresent : b.status.isUndef = false)
    (hstbad : jsIsStatus b.status = false) :
    patchHandler id b f s = (⟨400, .errJson "Invalid status"⟩, bumpStore s) := by
  have hbp : findByPk id s = (.ok (some task), bumpStore s) := by
    simp [findByPk, hid, bumpStore, hfound]
  rcases undefOrStr_cases htitle with ht | ⟨x, ht⟩ <;>
    rcases undefOrStr_cases hdesc with hd | ⟨y, hd⟩ <;>
      cases hst : b.status <;>
        simp_all [patchHandler, patchAttempt, patchStatus, hbp, JsVal.isUndef, jsTrim,
          jsIsStatus]

/-- Witness for C6: patching the concrete task with status "done" (and a
simultaneously supplied title) returns 400 and leaves the store untouched. -/
theorem patch_invalid_status_unmodified_w :
    patchHandler (genId 0) ⟨.str "New title", .undef, .str "done"⟩ redisOk wState
      = (⟨400, .errJson "Invalid status"⟩, bumpStore wState) :=
  patch_invalid_status_unmodified (genId 0) wState ⟨.str "New title", .undef, .str "done"⟩
    redisOk wTask (by decide) (by decide) (by decide) (by decide) (by decide) (by decide)

/-! ## C5 -/

/-- Case analysis granted by `undefNullOrStr`. -/
theorem undefNullOrStr_cases {v : JsVal} (h : undefNullOrStr v = true) :
    v = .undef ∨ v = .nullv ∨ ∃ y, v = .str y := by
  cases v with
  | undef => exact Or.inl rfl
  | nullv => exact Or.inr (Or.inl rfl)
  | str y => exact Or.inr (Or.inr ⟨y, rfl⟩)
  | bool b => simp [undefNullOrStr] at h
  | num n => simp [undefNullOrStr] at h
  | arr es => simp [undefNullOrStr] at h

/-- A truthy status passes through `status || 'pending'` unchanged. -/
theorem jsOrPending_truthy {v : JsVal} (h : v.truthy = true) : jsOrPending v = v := by
  simp [jsOrPending, h]

/-- A falsy status is replaced by `'pending'`. -/
theorem jsOrPending_falsy {v : JsVal} (h : v.truthy = false) :
    jsOrPending v = .str "pending" := by
  simp [jsOrPending, h]

/-- What a true `includes` check says about the status value. -/
theorem jsIsStatus_cases {v : JsVal} (h : jsIsStatus v = true) :
    ∃ q, v = .str q ∧ (q = "pending" ∨ q = "completed") := by
  cases v with
  | str q =>
    simp only [jsIsStatus, Bool.or_eq_true, beq_iff_eq] at h
    exact ⟨q, rfl, h⟩
  | undef => simp [jsIsStatus] at h
  | nullv => simp [jsIsStatus] at h
  | bool b => simp [jsIsStatus] at h
  | num n => simp [jsIsStatus] at h
  | arr es => simp [jsIsStatus] at h

/-- The model validators accept a non-empty, short-enough title with an
enumeration status string, producing that status. -/
theorem taskCreateValidate_good_status {t q : String}
    (h1 : jsStringTrim t ≠ "") (h2 : ¬ 255 < t.length)
    (h3 : q = "pending" ∨ q = "completed") :
    taskCreateValidate t (.str q) = .ok q := by
  unfold taskCreateValidate
  rw [if_neg h1, if_neg h2]
  rcases h3 with h3 | h3 <;> subst h3 <;> simp

/-- The model validators reject any status value failing the enumeration
membership check (when the title itself passes). -/
theorem taskCreateValidate_bad_status {t : String} {v : JsVal}
    (h1 : jsStringTrim t ≠ "") (h2 : ¬ 255 < t.length) (h3 : jsIsStatus v = false) :
    taskCreateValidate t v = .error (.seqValidation ["invalid status choice"]) := by
  unfold taskCreateValidate
  rw [if_neg h1, if_neg h2]
  cases v with
  | str q =>
    simp only [jsIsStatus, Bool.or_eq_false_iff, beq_eq_false_iff_ne, ne_eq] at h3
    simp [h3.1, h3.2]
  | undef => rfl
  | nullv => rfl
  | bool b => rfl
  | num n => rfl
  | arr es => rfl

/-- `clearCache` never touches the store. -/
theorem clearCache_store (f : RedisFates) (s : St) : (clearCache f s).store = s.store := by
  simp only [clearCache]
  split_ifs <;> rfl

/-- `clearCache` counts exactly one invalidation call. -/
theorem clearCache_clearCalls (f : RedisFates) (s : St) :
    (clearCache f s).clearCalls = s.clearCalls + 1 := by
  simp only [clearCache]
  split_ifs <;> rfl

/-- C5 counterexample: Create with title "a" and the present-but-invalid
status "" (the empty string is not in the enumeration) succeeds with 201 and
persists status "pending" — the claim demands a ValidationError failure for
every present status outside the enumeration. -/
theorem falsy_status_accepted :
    (createHandler ⟨.str "a", .undef, .str ""⟩ redisOk wState).1
      = ⟨201, .taskJson
          { id := genId 1, title := "a", description := "", status := "pending",
            createdAt := 5, updatedAt := 5 }⟩ := by
  decide

/-- C5 amended: Create fails with the title-required 400 when the title is
falsy or trims to empty, and with a validation 400 when the trimmed title
exceeds 255 characters or when the status is present, truthy and outside the
enumeration — in each case persisting nothing (the state is returned
unchanged).  A falsy status (such as the present empty string) is treated as
absent and defaults to "pending"; otherwise a valid Create persists exactly
one task holding the trimmed title, the trimmed description (empty when
absent or null), the given or defaulted status, and both timestamps set to
the current clock, and triggers one cache-invalidation call. -/
theorem create_validation_policy (s : St) (f : RedisFates) (b : ReqBody) :
    (b.title.truthy = false →
      createHandler b f s = (⟨400, .errJson "Title is required"⟩, s)) ∧
    (∀ x, b.title = .str x → jsStringTrim x = "" →
      createHandler b f s = (⟨400, .errJson "Title is required"⟩, s)) ∧
    (∀ x, b.title = .str x → jsStringTrim x ≠ "" → 255 < (jsStringTrim x).length →
      undefNullOrStr b.description = true →
      createHandler b f s
        = (⟨400, .valErrJson ["Title must be between 1 and 255 characters"]⟩, s)) ∧
    (∀ x, b.title = .str x → jsStringTrim x ≠ "" → (jsStringTrim x).length ≤ 255 →
      undefNullOrStr b.description = true →
      b.status.truthy = true → jsIsStatus b.status = false →
      createHandler b f s = (⟨400, .valErrJson ["invalid status choice"]⟩, s)) ∧
    (∀ x, b.title = .str x → jsStringTrim x ≠ "" → (jsStringTrim x).length ≤ 255 →
      undefNullOrStr b.description = true →
      (b.status.truthy = false ∨ jsIsStatus b.status = true) →
      ∃ t s1, createHandler b f s = (⟨201, .taskJson t⟩, s1) ∧
        t.id = genId s.store.nextIdSeed ∧
        t.title = jsStringTrim x ∧
        ((b.description = .undef ∨ b.description = .nullv) → t.description = "") ∧
        (∀ y, b.description = .str y → t.description = jsStringTrim y) ∧
        (b.status.truthy = false → t.status = "pending") ∧
        (∀ q, b.status = .str q → b.status.truthy = true → t.status = q) ∧
        t.createdAt = s.now ∧ t.updatedAt = s.now ∧
        s1.store.rows = s.store.rows ++ [t] ∧
        s1.clearCalls = s.clearCalls + 1) := by
  obtain ⟨tv, dv, sv⟩ := b
  refine ⟨?_, ?_, ?_, ?_, ?_⟩
  · intro htr
    simp [createHandler, createAttempt, htr]
  · intro x ht htrim
    subst ht
    by_cases hx : x = ""
    · subst hx
      simp [createHandler, createAttempt, JsVal.truthy]
    · simp [createHandler, createAttempt, JsVal.truthy, hx, jsTrim, htrim]
  · intro x ht htrim hlen hdesc
    subst ht
    have hx : x ≠ "" := jsStringTrim_ne_empty htrim
    rcases undefNullOrStr_cases hdesc with hd | hd | ⟨y, hd⟩ <;> subst hd <;>
      simp [createHandler, createAttempt, JsVal.truthy, hx, jsTrim, htrim,
        jsOptTrimOrEmpty, taskCreateValidate, jsStringTrim_idem, hlen,
        errorHandler]
  · intro x ht htrim hlen hdesc hst hstbad
    subst ht
    have hx : x ≠ "" := jsStringTrim_ne_empty htrim
    have hVal : taskCreateValidate (jsStringTrim x) (jsOrPending sv)
        = .error (.seqValidation ["invalid status choice"]) := by
      rw [jsOrPending_truthy hst]
      exact taskCreateValidate_bad_status (by rw [jsStringTrim_idem]; exact htrim)
        (Nat.not_lt.mpr hlen) hstbad
    rcases undefNullOrStr_cases hdesc with hd | hd | ⟨y, hd⟩ <;> subst hd <;>
      simp [createHandler, createAttempt, JsVal.truthy, hx, jsTrim, htrim,
        jsOptTrimOrEmpty, hVal, errorHandler]
  · intro x ht htrim hlen hdesc hstok
    subst ht
    have hx : x ≠ "" := jsStringTrim_ne_empty htrim
    have htrim2 : jsStringTrim (jsStringTrim x) ≠ "" := by
      rw [jsStringTrim_idem]; exact htrim
    have hlen2 : ¬ 255 < (jsStringTrim x).length := Nat.not_lt.mpr hlen
    obtain ⟨d, hdv, hdU, hdS⟩ : ∃ d, jsOptTrimOrEmpty dv = some d ∧
        ((dv = .undef ∨ dv = .nullv) → d = "") ∧
        (∀ y, dv = .str y → d = jsStringTrim y) := by
      rcases undefNullOrStr_cases hdesc with hd | hd | ⟨y, hd⟩ <;> subst hd
      · exact ⟨"", rfl, fun _ => rfl, by intro y hy; cases hy⟩
      · exact ⟨"", rfl, fun _ => rfl, by intro y hy; cases hy⟩
      · refine ⟨jsStringTrim y, rfl, ?_, ?_⟩
        · intro hy
          rcases hy with hy | hy <;> cases hy
        · intro y1 hy1
          cases hy1
          rfl
    obtain ⟨q, hq, hqF, hqS⟩ : ∃ q,
        taskCreateValidate (jsStringTrim x) (jsOrPending sv) = .ok q ∧
        (sv.truthy = false → q = "pending") ∧
        (∀ q0, sv = .str q0 → sv.truthy = true → q = q0) := by
      rcases hstok with hF | hT
      · refine ⟨"pending", ?_, fun _ => rfl, ?_⟩
        · rw [jsOrPending_falsy hF]
          exact taskCreateValidate_good_status htrim2 hlen2 (Or.inl rfl)
        · intro q0 heq htru
          rw [hF] at htru
          cases htru
      · obtain ⟨q0, hsv, henum⟩ := jsIsStatus_cases hT
        subst hsv
        have htru : (JsVal.str q0).truthy = true := by
          rcases henum with h | h <;> subst h <;> decide
        refine ⟨q0, ?_, ?_, ?_⟩
        · rw [jsOrPending_truthy htru]
          exact taskCreateValidate_good_status htrim2 hlen2 henum
        · intro hF
          rw [htru] at hF
          cases hF
        · intro q1 heq _
          cases heq
          rfl
    have hrun : createHandler ⟨.str x, dv, sv⟩ f s =
        (⟨201, .taskJson
            { id := genId s.store.nextIdSeed, title := jsStringTrim x, description := d,
              status := q, createdAt := s.now, updatedAt := s.now }⟩,
         clearCache f (bumpStore
           { s with store :=
               { rows := s.store.rows ++
                   [{ id := genId s.store.nextIdSeed, title := jsStringTrim x,
                      description := d, status := q,
                      createdAt := s.now, updatedAt := s.now }],
                 nextIdSeed := s.store.nextIdSeed + 1 } })) := by
      simp [createHandler, createAttempt, JsVal.truthy, hx, jsTrim, htrim, hdv, hq]
    refine ⟨_, _, hrun, rfl, rfl, hdU, hdS, hqF, hqS, rfl, rfl, ?_, ?_⟩
    · rw [clearCache_store]
      simp [bumpStore]
    · rw [clearCache_clearCalls]
      simp [bumpStore]

/-- Witness for C5 amended: the spec's concrete example — title
"  Buy milk  " with absent description and status persists the trimmed
title with status "pending" and empty description. -/
theorem create_validation_policy_w :
    ∃ t s1, createHandler ⟨.str "  Buy milk  ", .undef, .undef⟩ redisOk wState
        = (⟨201, .taskJson t⟩, s1) ∧
      t.id = genId wState.store.nextIdSeed ∧
      t.title = jsStringTrim "  Buy milk  " ∧
      ((JsVal.undef = JsVal.undef ∨ JsVal.undef = JsVal.nullv) → t.description = "") ∧
      (∀ y, JsVal.undef = JsVal.str y → t.description = jsStringTrim y) ∧
      (JsVal.undef.truthy = false → t.status = "pending") ∧
      (∀ q, JsVal.undef = JsVal.str q → JsVal.undef.truthy = true → t.status = q) ∧
      t.createdAt = wState.now ∧ t.updatedAt = wState.now ∧
      s1.store.rows = wState.store.rows ++ [t] ∧
      s1.clearCalls = wState.clearCalls + 1 :=
  (create_validation_policy wState redisOk ⟨.str "  Buy milk  ", .undef, .undef⟩).2.2.2.2
    "  Buy milk  " rfl (by decide) (by decide) (by decide) (Or.inl (by decide))

/-! ## C7 -/

/-- C7 counterexample: updating the concrete task with the whitespace title
"   " does not persist an empty title — `task.save()` runs the model's
`notEmpty` validator, which throws, and the request fails with the
validation 400 leaving the store unchanged (only the lookup's store access
is recorded). -/
theorem patch_empty_title_rejected :
    patchHandler (genId 0) ⟨.str "   ", .undef, .undef⟩ redisOk wState
      = (⟨400, .valErrJson ["Title cannot be empty"]⟩, bumpStore wState) := by
  decide

/-- C7 amended: an Update supplying a title stores it trimmed when the trim
is non-empty (and within 255 characters), refreshing `updatedAt`; but a
title that is empty after trimming is rejected by the model's `notEmpty`
validator at `task.save()` with a validation 400 and nothing is persisted. -/
theorem patch_title_trim_policy (id : String) (s : St) (x : String) (f : RedisFates)
    (task : Task)
    (hid : pgUuidOk id = true)
    (hfound : s.store.rows.find? (fun t => t.id == id) = some task)
    (hstat : task.status = "pending" ∨ task.status = "completed") :
    (jsStringTrim x ≠ "" → (jsStringTrim x).length ≤ 255 →
      ∃ t1 s2, patchHandler id ⟨.str x, .undef, .undef⟩ f s = (⟨200, .taskJson t1⟩, s2) ∧
        t1 = { task with title := jsStringTrim x, updatedAt := s.now } ∧
        s2.store.rows
          = s.store.rows.map (fun u => if u.id == task.id then t1 else u) ∧
        s2.clearCalls = s.clearCalls + 1) ∧
    (jsStringTrim x = "" →
      patchHandler id ⟨.str x, .undef, .undef⟩ f s
        = (⟨400, .valErrJson ["Title cannot be empty"]⟩, bumpStore s)) := by
  have hbp : findByPk id s = (.ok (some task), bumpStore s) := by
    simp [findByPk, hid, bumpStore, hfound]
  constructor
  · intro htrim hlen
    have hval : taskSaveValidate (jsStringTrim x) task.status = .ok () := by
      unfold taskSaveValidate
      rw [if_neg (by rw [jsStringTrim_idem]; exact htrim),
          if_neg (Nat.not_lt.mpr hlen)]
      rcases hstat with h | h <;> simp [h]
    have hrun : patchHandler id ⟨.str x, .undef, .undef⟩ f s =
        (⟨200, .taskJson { task with title := jsStringTrim x, updatedAt := s.now }⟩,
         clearCache f (bumpStore
           { (bumpStore s) with store :=
               { (bumpStore s).store with rows :=
                   (bumpStore s).store.rows.map (fun u =>
                     if u.id == task.id
                     then { task with title := jsStringTrim x, updatedAt := s.now }
                     else u) } })) := by
      simp [patchHandler, patchAttempt, patchStatus, hbp, JsVal.isUndef, jsTrim,
        jsIsStatus, hval, bumpStore]
    refine ⟨_, _, hrun, rfl, ?_, ?_⟩
    · rw [clearCache_store]
      simp [bumpStore]
    · rw [clearCache_clearCalls]
      simp [bumpStore]
  · intro htrim
    have hval : taskSaveValidate (jsStringTrim x) task.status
        = .error (.seqValidation ["Title cannot be empty"]) := by
      unfold taskSaveValidate
      rw [if_pos (by rw [jsStringTrim_idem]; exact htrim)]
    simp [patchHandler, patchAttempt, patchStatus, hbp, JsVal.isUndef, jsTrim,
      jsIsStatus, hval, errorHandler]

/-- Witness for C7 amended: the valid branch at title "  Updated  " and the
rejected branch at the whitespace title "   ", against the concrete state. -/
theorem patch_title_trim_policy_w :
    (∃ t1 s2, patchHandler (genId 0) ⟨.str "  Updated  ", .undef, .undef⟩ redisOk wState
        = (⟨200, .taskJson t1⟩, s2) ∧
      t1 = { wTask with title := jsStringTrim "  Updated  ", updatedAt := wState.now } ∧
      s2.store.rows
        = wState.store.rows.map (fun u => if u.id == wTask.id then t1 else u) ∧
      s2.clearCalls = wState.clearCalls + 1) ∧
    patchHandler (genId 0) ⟨.str "   ", .undef, .undef⟩ redisOk wState
      = (⟨400, .valErrJson ["Title cannot be empty"]⟩, bumpStore wState) :=
  ⟨(patch_title_trim_policy (genId 0) wState "  Updated  " redisOk wTask
      (by decide) (by decide) (Or.inl (by decide))).1 (by decide) (by decide),
   (patch_title_trim_policy (genId 0) wState "   " redisOk wTask
      (by decide) (by decide) (Or.inl (by decide))).2 (by decide)⟩

/-! ## C9 -/

/-- A successful primary-key lookup. -/
theorem getTaskHandler_found {id : String} {s : St} {t : Task}
    (hid : pgUuidOk id = true)
    (hfind : s.store.rows.find? (fun u => u.id == id) = some t) :
    getTaskHandler id s = (⟨200, .taskJson t⟩, bumpStore s) := by
  simp [getTaskHandler, findByPk, hid, bumpStore, hfind]

/-- C9: Create followed by Get of the returned id yields the very same task
record in every field (id, title, description, status, createdAt,
updatedAt), with no intervening mutation.  The freshness hypothesis states
that the id the store generates for this insertion is not already taken —
the store's primary-key/uuid-generation guarantee. -/
theorem create_get_roundtrip (s : St) (f : RedisFates) (x : String) (d st : JsVal)
    (htrim : jsStringTrim x ≠ "") (hlen : (jsStringTrim x).length ≤ 255)
    (hd : undefNullOrStr d = true)
    (hst : st.truthy = false ∨ jsIsStatus st = true)
    (hfresh : ∀ u ∈ s.store.rows, u.id ≠ genId s.store.nextIdSeed) :
    ∃ t s1, createHandler ⟨.str x, d, st⟩ f s = (⟨201, .taskJson t⟩, s1) ∧
      getTaskHandler t.id s1 = (⟨200, .taskJson t⟩, bumpStore s1) := by
  have hx : x ≠ "" := jsStringTrim_ne_empty htrim
  have htrim2 : jsStringTrim (jsStringTrim x) ≠ "" := by
    rw [jsStringTrim_idem]; exact htrim
  have hlen2 : ¬ 255 < (jsStringTrim x).length := Nat.not_lt.mpr hlen
  obtain ⟨dd, hdv⟩ : ∃ dd, jsOptTrimOrEmpty d = some dd := by
    rcases undefNullOrStr_cases hd with h | h | ⟨y, h⟩ <;> subst h <;>
      exact ⟨_, rfl⟩
  obtain ⟨q, hq⟩ : ∃ q,
      taskCreateValidate (jsStringTrim x) (jsOrPending st) = .ok q := by
    rcases hst with hF | hT
    · exact ⟨"pending", by
        rw [jsOrPending_falsy hF]
        exact taskCreateValidate_good_status htrim2 hlen2 (Or.inl rfl)⟩
    · obtain ⟨q0, hsv, henum⟩ := jsIsStatus_cases hT
      subst hsv
      have htru : (JsVal.str q0).truthy = true := by
        rcases henum with h | h <;> subst h <;> decide
      exact ⟨q0, by
        rw [jsOrPending_truthy htru]
        exact taskCreateValidate_good_status htrim2 hlen2 henum⟩
  have hrun : createHandler ⟨.str x, d, st⟩ f s =
      (⟨201, .taskJson
          { id := genId s.store.nextIdSeed, title := jsStringTrim x, description := dd,
            status := q, createdAt := s.now, updatedAt := s.now }⟩,
       clearCache f (bumpStore
         { s with store :=
             { rows := s.store.rows ++
                 [{ id := genId s.store.nextIdSeed, title := jsStringTrim x,
                    description := dd, status := q,
                    createdAt := s.now, updatedAt := s.now }],
               nextIdSeed := s.store.nextIdSeed + 1 } })) := by
    simp [createHandler, createAttempt, JsVal.truthy, hx, jsTrim, htrim, hdv, hq]
  refine ⟨_, _, hrun, ?_⟩
  have hrows : (clearCache f (bumpStore
      { s with store :=
          { rows := s.store.rows ++
              [{ id := genId s.store.nextIdSeed, title := jsStringTrim x,
                 description := dd, status := q,
                 createdAt := s.now, updatedAt := s.now }],
            nextIdSeed := s.store.nextIdSeed + 1 } })).store.rows
      = s.store.rows ++
          [{ id := genId s.store.nextIdSeed, title := jsStringTrim x,
             description := dd, status := q,
             createdAt := s.now, updatedAt := s.now }] := by
    rw [clearCache_store]
    simp [bumpStore]
  have hnone : s.store.rows.find?
      (fun u => u.id == genId s.store.nextIdSeed) = none := by
    rw [List.find?_eq_none]
    intro u hu
    simpa using hfresh u hu
  have hfind : (clearCache f (bumpStore
      { s with store :=
          { rows := s.store.rows ++
              [{ id := genId s.store.nextIdSeed, title := jsStringTrim x,
                 description := dd, status := q,
                 createdAt := s.now, updatedAt := s.now }],
            nextIdSeed := s.store.nextIdSeed + 1 } })).store.rows.find?
        (fun u => u.id == genId s.store.nextIdSeed)
      = some { id := genId s.store.nextIdSeed, title := jsStringTrim x,
               description := dd, status := q,
               createdAt := s.now, updatedAt := s.now } := by
    rw [hrows, List.find?_append, hnone]
    simp
  exact getTaskHandler_found (pgUuidOk_genId _) hfind

/-- Witness for C9 at the concrete state and input title "  Ship it  ". -/
theorem create_get_roundtrip_w :
    ∃ t s1, createHandler ⟨.str "  Ship it  ", .undef, .undef⟩ redisOk wState
        = (⟨201, .taskJson t⟩, s1) ∧
      getTaskHandler t.id s1 = (⟨200, .taskJson t⟩, bumpStore s1) :=
  create_get_roundtrip wState redisOk "  Ship it  " .undef .undef
    (by decide) (by decide) (by decide) (Or.inl (by decide)) (by decide)

/-! ## C2 -/

/-- The error handler never produces a 201. -/
theorem errorHandler_status (e : Exc) :
    (errorHandler e).status = 400 ∨ (errorHandler e).status = 500 := by
  cases e <;> simp [errorHandler]

/-- `clearCache` keeps the connection flag. -/
theorem clearCache_isOpen (f : RedisFates) (s : St) :
    (clearCache f s).isOpen = s.isOpen := by
  simp only [clearCache]
  split_ifs <;> rfl

/-- `clearCache` while open with a succeeding delete empties the cache key. -/
theorem clearCache_cache_none {f : RedisFates} {s : St}
    (hopen : s.isOpen = true) (hdel : f.delFails = false) :
    (clearCache f s).cache = none := by
  simp [clearCache, hopen, hdel]

/-- On an open connection with an empty cache, List reads the store fresh. -/
theorem listHandler_fresh {s : St} (hopen : s.isOpen = true) (hnone : s.cache = none) :
    (listHandler redisOk s).1
      = ⟨200, .tasksJson (serializeTasks (sortByCreatedDesc s.store.rows))⟩ := by
  simp [listHandler, hopen, redisOk, cacheRead, hnone, bumpStore]

/-- Outcome analysis of the create attempt: a failure responds with a
non-201 status and touches neither the invalidation counter, the cache nor
the connection; a success responds 201 from a state with the same
invalidation counter, connection flag and clock. -/
theorem createAttempt_spec (b : ReqBody) (s : St) :
    (∃ r s1, createAttempt b s = .fail r s1 ∧ r.status ≠ 201 ∧
      s1.clearCalls = s.clearCalls ∧ s1.cache = s.cache ∧ s1.isOpen = s.isOpen) ∨
    (∃ r s1, createAttempt b s = .success r s1 ∧ r.status = 201 ∧
      s1.clearCalls = s.clearCalls ∧ s1.isOpen = s.isOpen ∧ s1.now = s.now) := by
  unfold createAttempt
  split
  · split
    · exact Or.inl ⟨_, _, rfl, by simp [errorHandler], rfl, rfl, rfl⟩
    · split
      · exact Or.inl ⟨_, _, rfl, by simp, rfl, rfl, rfl⟩
      · split
        · exact Or.inl ⟨_, _, rfl, by simp [errorHandler], rfl, rfl, rfl⟩
        · split
          · rename_i e heq
            refine Or.inl ⟨_, _, rfl, ?_, rfl, rfl, rfl⟩
            rcases errorHandler_status e with h | h <;> simp [h]
          · exact Or.inr ⟨_, _, rfl, rfl, by simp [bumpStore], by simp [bumpStore],
              by simp [bumpStore]⟩
  · exact Or.inl ⟨_, _, rfl, by simp, rfl, rfl, rfl⟩

/-- Outcome analysis of the patch attempt, as for the create attempt. -/
theorem patchAttempt_spec (id : String) (b : ReqBody) (s : St) :
    (∃ r s1, patchAttempt id b s = .fail r s1 ∧ r.status ≠ 200 ∧
      s1.clearCalls = s.clearCalls ∧ s1.cache = s.cache ∧ s1.isOpen = s.isOpen) ∨
    (∃ r s1, patchAttempt id b s = .success r s1 ∧ r.status = 200 ∧
      s1.clearCalls = s.clearCalls ∧ s1.isOpen = s.isOpen ∧ s1.now = s.now) := by
  unfold patchAttempt
  split
  · rename_i e s1 heq
    refine Or.inl ⟨_, _, rfl, ?_, ?_, ?_, ?_⟩ <;>
      first
      | (rcases errorHandler_status e with h | h <;> simp [h])
      | (have : s1 = bumpStore s := by
          have := heq
          simp only [findByPk] at this
          split at this <;> simp_all
         subst this
         simp [bumpStore])
  · rename_i s1 heq
    refine Or.inl ⟨_, _, rfl, by simp, ?_, ?_, ?_⟩ <;>
      (have : s1 = bumpStore s := by
          have := heq
          simp only [findByPk] at this
          split at this <;> simp_all
       subst this
       simp [bumpStore])
  · rename_i task s1 heq
    have hs1 : s1 = bumpStore s := by
      have := heq
      simp only [findByPk] at this
      split at this <;> simp_all
    subst hs1
    split
    · exact Or.inl ⟨_, _, rfl, by simp [errorHandler], by simp [bumpStore],
        by simp [bumpStore], by simp [bumpStore]⟩
    · split
      · exact Or.inl ⟨_, _, rfl, by simp [errorHandler], by simp [bumpStore],
          by simp [bumpStore], by simp [bumpStore]⟩
      · split
        · split
          · rename_i e heq2
            refine Or.inl ⟨_, _, rfl, ?_, by simp [bumpStore], by simp [bumpStore],
              by simp [bumpStore]⟩
            rcases errorHandler_status e with h | h <;> simp [h]
          · exact Or.inr ⟨_, _, rfl, rfl, by simp [bumpStore], by simp [bumpStore],
              by simp [bumpStore]⟩
        · exact Or.inl ⟨_, _, rfl, by simp, by simp [bumpStore], by simp [bumpStore],
            by simp [bumpStore]⟩

/-- Outcome analysis of the delete attempt, as for the create attempt. -/
theorem deleteAttempt_spec (id : String) (s : St) :
    (∃ r s1, deleteAttempt id s = .fail r s1 ∧ r.status ≠ 200 ∧
      s1.clearCalls = s.clearCalls ∧ s1.cache = s.cache ∧ s1.isOpen = s.isOpen) ∨
    (∃ r s1, deleteAttempt id s = .success r s1 ∧ r.status = 200 ∧
      s1.clearCalls = s.clearCalls ∧ s1.isOpen = s.isOpen ∧ s1.now = s.now) := by
  unfold deleteAttempt
  split
  · rename_i e s1 heq
    refine Or.inl ⟨_, _, rfl, ?_, ?_, ?_, ?_⟩ <;>
      first
      | (rcases errorHandler_status e with h | h <;> simp [h])
      | (have : s1 = bumpStore s := by
          have := heq
          simp only [findByPk] at this
          split at this <;> simp_all
         subst this
         simp [bumpStore])
  · rename_i s1 heq
    refine Or.inl ⟨_, _, rfl, by simp, ?_, ?_, ?_⟩ <;>
      (have : s1 = bumpStore s := by
          have := heq
          simp only [findByPk] at this
          split at this <;> simp_all
       subst this
       simp [bumpStore])
  · rename_i task s1 heq
    have hs1 : s1 = bumpStore s := by
      have := heq
      simp only [findByPk] at this
      split at this <;> simp_all
    subst hs1
    exact Or.inr ⟨_, _, rfl, rfl, by simp [bumpStore], by simp [bumpStore],
      by simp [bumpStore]⟩

/-- C2 counterexample: a successful Create whose invalidation delete throws
(the error is swallowed) leaves the pre-mutation snapshot cached, and the
very next List() serves exactly that pre-mutation snapshot — which no longer
matches the store contents — contradicting the claim's "never". -/
theorem list_stale_after_swallowed_invalidation :
    (createHandler ⟨.str "B", .undef, .undef⟩ ⟨false, false, true⟩ wStateCached).1.status
        = 201 ∧
    (listHandler redisOk
        ((createHandler ⟨.str "B", .undef, .undef⟩ ⟨false, false, true⟩
            wStateCached).2)).1
      = ⟨200, .tasksJson (serializeTasks [wTask])⟩ ∧
    serializeTasks [wTask]
      ≠ serializeTasks (sortByCreatedDesc
          ((createHandler ⟨.str "B", .undef, .undef⟩ ⟨false, false, true⟩
              wStateCached).2).store.rows) := by
  refine ⟨by decide, by decide, by decide⟩

/-- The per-request invalidation contract of one mutation handler `run`
(parameterised over the Redis fates) with success status `okStatus`, from
state `s`: a successful run records exactly one invalidation call and a
failed run none; the response never depends on the Redis fates; and when the
client is open and the invalidation delete succeeds, the cache key is gone
and the very next List() reads the store fresh. -/
def MutInvariantAt (run : RedisFates → Resp × St) (okStatus : Nat)
    (s : St) (f : RedisFates) : Prop :=
  ((run f).1.status = okStatus → (run f).2.clearCalls = s.clearCalls + 1) ∧
  ((run f).1.status ≠ okStatus → (run f).2.clearCalls = s.clearCalls) ∧
  ((run f).1 = (run redisOk).1) ∧
  (s.isOpen = true → f.delFails = false → (run f).1.status = okStatus →
    (run f).2.cache = none ∧
    (listHandler redisOk ((run f).2)).1
      = ⟨200, .tasksJson (serializeTasks (sortByCreatedDesc ((run f).2).store.rows))⟩)

/-- The create handler meets the invalidation contract. -/
theorem createHandler_invalidation (b : ReqBody) (f : RedisFates) (s : St) :
    MutInvariantAt (fun f => createHandler b f s) 201 s f := by
  rcases createAttempt_spec b s with ⟨r, s1, heq, hne, hc, hcache, hopen⟩ |
    ⟨r, s1, heq, hst, hc, hopen, hnow⟩
  · have hH : ∀ g, createHandler b g s = (r, s1) := by
      intro g; simp [createHandler, heq]
    refine ⟨?_, ?_, ?_, ?_⟩ <;> simp only [hH]
    · intro h; exact absurd h hne
    · intro _; exact hc
    · intro _ _ h; exact absurd h hne
  · have hH : ∀ g, createHandler b g s = (r, clearCache g s1) := by
      intro g; simp [createHandler, heq]
    refine ⟨?_, ?_, ?_, ?_⟩ <;> simp only [hH]
    · intro _; rw [clearCache_clearCalls, hc]
    · intro h; exact absurd hst h
    · intro hop hdel _
      have hopen1 : s1.isOpen = true := by rw [hopen]; exact hop
      have hcn : (clearCache f s1).cache = none := clearCache_cache_none hopen1 hdel
      exact ⟨hcn, listHandler_fresh (by rw [clearCache_isOpen]; exact hopen1) hcn⟩

/-- The patch handler meets the invalidation contract. -/
theorem patchHandler_invalidation (id : String) (b : ReqBody) (f : RedisFates) (s : St) :
    MutInvariantAt (fun f => patchHandler id b f s) 200 s f := by
  rcases patchAttempt_spec id b s with ⟨r, s1, heq, hne, hc, hcache, hopen⟩ |
    ⟨r, s1, heq, hst, hc, hopen, hnow⟩
  · have hH : ∀ g, patchHandler id b g s = (r, s1) := by
      intro g; simp [patchHandler, heq]
    refine ⟨?_, ?_, ?_, ?_⟩ <;> simp only [hH]
    · intro h; exact absurd h hne
    · intro _; exact hc
    · intro _ _ h; exact absurd h hne
  · have hH : ∀ g, patchHandler id b g s = (r, clearCache g s1) := by
      intro g; simp [patchHandler, heq]
    refine ⟨?_, ?_, ?_, ?_⟩ <;> simp only [hH]
    · intro _; rw [clearCache_clearCalls, hc]
    · intro h; exact absurd hst h
    · intro hop hdel _
      have hopen1 : s1.isOpen = true := by rw [hopen]; exact hop
      have hcn : (clearCache f s1).cache = none := clearCache_cache_none hopen1 hdel
      exact ⟨hcn, listHandler_fresh (by rw [clearCache_isOpen]; exact hopen1) hcn⟩

/-- The delete handler meets the invalidation contract. -/
theorem deleteHandler_invalidation (id : String) (f : RedisFates) (s : St) :
    MutInvariantAt (fun f => deleteHandler id f s) 200 s f := by
  rcases deleteAttempt_spec id s with ⟨r, s1, heq, hne, hc, hcache, hopen⟩ |
    ⟨r, s1, heq, hst, hc, hopen, hnow⟩
  · have hH : ∀ g, deleteHandler id g s = (r, s1) := by
      intro g; simp [deleteHandler, heq]
    refine ⟨?_, ?_, ?_, ?_⟩ <;> simp only [hH]
    · intro h; exact absurd h hne
    · intro _; exact hc
    · intro _ _ h; exact absurd h hne
  · have hH : ∀ g, deleteHandler id g s = (r, clearCache g s1) := by
      intro g; simp [deleteHandler, heq]
    refine ⟨?_, ?_, ?_, ?_⟩ <;> simp only [hH]
    · intro _; rw [clearCache_clearCalls, hc]
    · intro h; exact absurd hst h
    · intro hop hdel _
      have hopen1 : s1.isOpen = true := by rw [hopen]; exact hop
      have hcn : (clearCache f s1).cache = none := clearCache_cache_none hopen1 hdel
      exact ⟨hcn, listHandler_fresh (by rw [clearCache_isOpen]; exact hopen1) hcn⟩

/-- C2 amended: every successful Create/Update/Delete records exactly one
cache-invalidation call and every unsuccessful one none; Redis failures
during the mutation are swallowed (the response never depends on them); and
whenever the client is open and the invalidation's delete succeeds, the next
List() does not serve a pre-mutation snapshot but reads the current store —
whereas after a swallowed delete failure the old snapshot can still be
served until it expires (see the counterexample). -/
theorem invalidation_policy (s : St) (f : RedisFates) (b : ReqBody) (id : String) :
    MutInvariantAt (fun f => createHandler b f s) 201 s f ∧
    MutInvariantAt (fun f => patchHandler id b f s) 200 s f ∧
    MutInvariantAt (fun f => deleteHandler id f s) 200 s f :=
  ⟨createHandler_invalidation b f s, patchHandler_invalidation id b f s,
   deleteHandler_invalidation id f s⟩

/-- Witness for C2 amended, at the cached concrete state with a
delete-failing fate pattern. -/
theorem invalidation_policy_w :
    MutInvariantAt
      (fun f => createHandler ⟨.str "B", .undef, .undef⟩ f wStateCached) 201
      wStateCached ⟨false, false, true⟩ ∧
    MutInvariantAt
      (fun f => patchHandler (genId 0) ⟨.str "B", .undef, .undef⟩ f wStateCached) 200
      wStateCached ⟨false, false, true⟩ ∧
    MutInvariantAt
      (fun f => deleteHandler (genId 0) f wStateCached) 200
      wStateCached ⟨false, false, true⟩ :=
  invalidation_policy wStateCached ⟨false, false, true⟩ ⟨.str "B", .undef, .undef⟩
    (genId 0)

/-! ## C8 -/

/-- Request body holding only a title. -/
def titleOnly (t : String) : ReqBody := ⟨.str t, .undef, .undef⟩

/-- Empty store, empty cache, open client, clock at zero. -/
def demoS0 : St :=
  { store := { rows := [], nextIdSeed := 0 }, cache := none,
    isOpen := true, now := 0, storeCalls := 0, clearCalls := 0 }

/-- Create "A", let a clock unit pass. -/
def demoS1 : St := tick (createHandler (titleOnly "A") redisOk demoS0).2

/-- Then create "B" and wait again. -/
def demoS2 : St := tick (createHandler (titleOnly "B") redisOk demoS1).2

/-- Then create "C". -/
def demoS3 : St := (createHandler (titleOnly "C") redisOk demoS2).2

set_option maxRecDepth 8192

/-- C8: the listing the store query yields is a permutation of the rows,
sorted by `createdAt` descending, with all rows of equal `createdAt` kept in
insertion order (the filter at every key is unchanged — a stable order); any
List() that reads the store returns exactly this order's serialization
(shown for the degraded path and for the open-client cache miss); and in the
concrete scenario of creating A, B, C in sequence, List() returns C, B, A. -/
theorem listing_order_policy (ts : List Task) (k : Nat) (s : St) (f : RedisFates) :
    List.Perm (sortByCreatedDesc ts) ts ∧
    (sortByCreatedDesc ts).Pairwise (fun a b => b.createdAt ≤ a.createdAt) ∧
    (sortByCreatedDesc ts).filter (fun u => u.createdAt == k)
      = ts.filter (fun u => u.createdAt == k) ∧
    (s.isOpen = false →
      (listHandler f s).1
        = ⟨200, .tasksJson (serializeTasks (sortByCreatedDesc s.store.rows))⟩) ∧
    (s.isOpen = true → cacheRead s = none →
      (listHandler redisOk s).1
        = ⟨200, .tasksJson (serializeTasks (sortByCreatedDesc s.store.rows))⟩) ∧
    (sortByCreatedDesc demoS3.store.rows).map (fun t => t.title) = ["C", "B", "A"] ∧
    (listHandler redisOk demoS3).1
      = ⟨200, .tasksJson (serializeTasks (sortByCreatedDesc demoS3.store.rows))⟩ := by
  refine ⟨sortByCreatedDesc_perm ts, sortByCreatedDesc_sorted ts,
    sortByCreatedDesc_stable ts k, ?_, ?_, by decide, by decide⟩
  · intro hcl
    simp [listHandler, hcl, bumpStore]
  · intro hop hm
    simp [listHandler, hop, hm, redisOk, bumpStore]

/-- Witness for C8 at a concrete two-task tie: both rows carry the same
`createdAt`, and the stable sort keeps them in insertion order, while the
degraded and miss paths return the sorted serialization. -/
theorem listing_order_policy_w :
    List.Perm (sortByCreatedDesc [wTask, { wTask with id := genId 1, title := "Second" }])
      [wTask, { wTask with id := genId 1, title := "Second" }] ∧
    (sortByCreatedDesc [wTask, { wTask with id := genId 1, title := "Second" }]).Pairwise
      (fun a b => b.createdAt ≤ a.createdAt) ∧
    (sortByCreatedDesc [wTask, { wTask with id := genId 1, title := "Second" }]).filter
        (fun u => u.createdAt == 0)
      = [wTask, { wTask with id := genId 1, title := "Second" }].filter
          (fun u => u.createdAt == 0) ∧
    (wStateClosed.isOpen = false →
      (listHandler redisOk wStateClosed).1
        = ⟨200, .tasksJson (serializeTasks (sortByCreatedDesc wStateClosed.store.rows))⟩) ∧
    (wState.isOpen = true → cacheRead wState = none →
      (listHandler redisOk wState).1
        = ⟨200, .tasksJson (serializeTasks (sortByCreatedDesc wState.store.rows))⟩) ∧
    (sortByCreatedDesc demoS3.store.rows).map (fun t => t.title) = ["C", "B", "A"] ∧
    (listHandler redisOk demoS3).1
      = ⟨200, .tasksJson (serializeTasks (sortByCreatedDesc demoS3.store.rows))⟩ := by
  have h1 := listing_order_policy
    [wTask, { wTask with id := genId 1, title := "Second" }] 0 wStateClosed redisOk
  have h2 := listing_order_policy
    [wTask, { wTask with id := genId 1, title := "Second" }] 0 wState redisOk
  exact ⟨h1.1, h1.2.1, h1.2.2.1, h1.2.2.2.1, h2.2.2.2.2.1, h1.2.2.2.2.2.1,
    h1.2.2.2.2.2.2⟩

end TaskApi
